import Mathlib

/-!
A verification model of the My-Messenger backend (`backend/server.py`).

The embedding covers the parts of the server that the specification talks
about: the login endpoint with its hardcoded credential table and pydantic
response model, the in-memory connection registry (`active_connections`,
a Python dict from user identity to websocket handle), the send/fetch
relay operations backed by the message store, and the per-connection
websocket handler loop.

Modelling conventions:
* `uuid.uuid4()` identities are modelled by a freshness counter `nextId`
  carried in the server state; `datetime.utcnow()` by a numeric clock `now`.
* The MongoDB collection `db.messages` is modelled as a list in insertion
  order; `find(...).sort("timestamp", 1).to_list(1000)` is a stable sort by
  timestamp followed by `take 1000`.
* External I/O that can raise (a store write/read, a websocket send) is
  modelled by explicit success flags; a raised exception is an
  `Except.error` and, faithfully to Python control flow, none of the code
  after the raising call runs.
-/

namespace Messenger

/-- A message record as persisted in `db.messages` (class `Message` in
`server.py`): `id` models the `uuid4` string, `timestamp` the
`datetime.utcnow()` value. -/
structure Message where
  id : Nat
  sender : String
  receiver : String
  encrypted_content : String
  timestamp : Nat
  deriving DecidableEq

/-- The request body of the send endpoint (class `MessageCreate`). -/
structure MessageCreate where
  receiver : String
  encrypted_content : String
  deriving DecidableEq

/-- The in-memory connection registry `active_connections : Dict[str, WebSocket]`,
modelled as an association list from identity to an abstract channel handle. -/
abbrev Registry (χ : Type) := List (String × χ)

/-- Dictionary read `active_connections.get(user)` / `user in active_connections`. -/
def lookup {χ : Type} : Registry χ → String → Option χ
  | [], _ => none
  | (k, c) :: rest, user => if k = user then some c else lookup rest user

/-- Dictionary removal `active_connections.pop(user, None)`: drops every
binding of `user` (a Python dict holds at most one, so this coincides with
`pop`), and is a no-op when the key is absent. -/
def unregister {χ : Type} : Registry χ → String → Registry χ
  | [], _ => []
  | (k, c) :: rest, user =>
      if k = user then unregister rest user else (k, c) :: unregister rest user

/-- Dictionary assignment `active_connections[user] = ch`: insert-or-replace.
The position of the binding is not observable through `lookup`. -/
def register {χ : Type} (reg : Registry χ) (user : String) (ch : χ) : Registry χ :=
  (user, ch) :: unregister reg user

/-- The dict invariant: at most one binding per identity. -/
def NodupKeys {χ : Type} (reg : Registry χ) : Prop :=
  (reg.map Prod.fst).Nodup

theorem lookup_register_self {χ : Type} (reg : Registry χ) (u : String) (c : χ) :
    lookup (register reg u c) u = some c := by
  simp [register, lookup]

theorem lookup_unregister_self {χ : Type} (reg : Registry χ) (u : String) :
    lookup (unregister reg u) u = none := by
  induction reg with
  | nil => rfl
  | cons p rest ih =>
      obtain ⟨k, c⟩ := p
      by_cases hk : k = u
      · simpa [unregister, hk] using ih
      · simpa [unregister, lookup, hk] using ih

theorem unregister_of_lookup_none {χ : Type} (reg : Registry χ) (u : String)
    (h : lookup reg u = none) : unregister reg u = reg := by
  induction reg with
  | nil => rfl
  | cons p rest ih =>
      obtain ⟨k, c⟩ := p
      by_cases hk : k = u
      · simp [lookup, hk] at h
      · simp [lookup, hk] at h
        simp [unregister, hk, ih h]

theorem mem_keys_unregister {χ : Type} (reg : Registry χ) (u x : String)
    (hx : x ∈ (unregister reg u).map Prod.fst) : x ∈ reg.map Prod.fst ∧ x ≠ u := by
  induction reg with
  | nil => simp [unregister] at hx
  | cons p rest ih =>
      obtain ⟨k, c⟩ := p
      by_cases hk : k = u
      · simp only [unregister, hk, if_pos rfl] at hx
        rcases ih hx with ⟨h1, h2⟩
        exact ⟨by simp [h1], h2⟩
      · simp only [unregister, if_neg hk, List.map_cons, List.mem_cons] at hx
        rcases hx with hx | hx
        · exact ⟨by simp [hx], hx ▸ hk⟩
        · rcases ih hx with ⟨h1, h2⟩
          exact ⟨by simp [h1], h2⟩

theorem nodupKeys_unregister {χ : Type} (reg : Registry χ) (u : String)
    (h : NodupKeys reg) : NodupKeys (unregister reg u) := by
  induction reg with
  | nil => exact h
  | cons p rest ih =>
      obtain ⟨k, c⟩ := p
      simp only [NodupKeys, List.map_cons, List.nodup_cons] at h
      by_cases hk : k = u
      · simpa [NodupKeys, unregister, hk] using ih h.2
      · simp only [NodupKeys, unregister, if_neg hk, List.map_cons, List.nodup_cons]
        refine ⟨fun hmem => ?_, ih h.2⟩
        exact h.1 (mem_keys_unregister rest u k hmem).1

theorem nodupKeys_register {χ : Type} (reg : Registry χ) (u : String) (c : χ)
    (h : NodupKeys reg) : NodupKeys (register reg u c) := by
  simp only [NodupKeys, register, List.map_cons, List.nodup_cons]
  refine ⟨fun hmem => ?_, nodupKeys_unregister reg u h⟩
  exact (mem_keys_unregister reg u u hmem).2 rfl

/-- The mutable server state the relay operations touch: the message
collection, the connection registry, the uuid freshness counter and the
clock. -/
structure ServerState (χ : Type) where
  messages : List Message
  conns : Registry χ
  nextId : Nat
  now : Nat

/-- A failing History Store call (`motor` raising on `insert_one` /
`find ... to_list`), surfaced by FastAPI as a server-side failure. -/
inductive StorageError
  | storageFailure
  deriving DecidableEq

/-- The `$or` query filter of `get_messages`: the user is sender or receiver. -/
def matchesB (user : String) (m : Message) : Bool :=
  m.sender == user || m.receiver == user

/-- The sort key of `find(...).sort("timestamp", 1)`. -/
def tsLe (a b : Message) : Prop :=
  a.timestamp ≤ b.timestamp

instance : DecidableRel tsLe := fun a b => Nat.decLe a.timestamp b.timestamp

instance : IsTotal Message tsLe := ⟨fun a b => Nat.le_total a.timestamp b.timestamp⟩

instance : IsTrans Message tsLe := ⟨fun _ _ _ hab hbc => Nat.le_trans hab hbc⟩

/-- The `Message(...)` construction in `send_message`: fresh `uuid4` id and
`utcnow` timestamp, the caller-supplied sender, and the request's receiver
and content. -/
def mkMessage {χ : Type} (st : ServerState χ) (sender : String) (mc : MessageCreate) : Message :=
  { id := st.nextId
    sender := sender
    receiver := mc.receiver
    encrypted_content := mc.encrypted_content
    timestamp := st.now }

/-- The outbound frames a websocket can carry (`send_text` payloads). -/
inductive WsOut
  | pong (data : String)
  | newMessage (m : Message)
  deriving DecidableEq

/-- The send endpoint `send_message(message, sender)`.  `insertOk` models
whether `db.messages.insert_one` succeeds; `pushOk` whether the
`send_text` live push succeeds.  The result carries the response and the
delivered frames; the second component is the server state after the
call (unchanged when the store write raises, since nothing after that
line runs). -/
def send_message {χ : Type} (st : ServerState χ) (sender : String) (mc : MessageCreate)
    (insertOk pushOk : Bool) :
    Except StorageError (Message × List (χ × WsOut)) × ServerState χ :=
  let m := mkMessage st sender mc
  if insertOk then
    let st1 : ServerState χ :=
      { st with messages := st.messages ++ [m], nextId := st.nextId + 1 }
    match lookup st.conns mc.receiver with
    | some ch =>
        if pushOk then (Except.ok (m, [(ch, WsOut.newMessage m)]), st1)
        else (Except.ok (m, []), { st1 with conns := unregister st1.conns mc.receiver })
    | none => (Except.ok (m, []), st1)
  else (Except.error StorageError.storageFailure, st)

/-- The fetch endpoint `get_messages(user)`: query the store for messages
with the user as sender or receiver, sorted by timestamp ascending,
capped by `to_list(1000)`.  `queryOk` models whether the store read
succeeds.  The state is returned unchanged: the endpoint only reads. -/
def get_messages {χ : Type} (st : ServerState χ) (user : String) (queryOk : Bool) :
    Except StorageError (List Message) × ServerState χ :=
  if queryOk then
    (Except.ok (((st.messages.filter (matchesB user)).insertionSort tsLe).take 1000), st)
  else (Except.error StorageError.storageFailure, st)

/-- The login request body (class `LoginRequest`). -/
structure LoginRequest where
  password : String

/-- The login response model (class `LoginResponse`).  In the pydantic
model `success`, `token` and `message` are required fields; `user`
defaults to `None`. -/
structure LoginResponse where
  success : Bool
  user : Option String
  token : String
  message : String
  deriving DecidableEq

/-- A server-side fault: an unhandled exception inside an endpoint,
surfaced by FastAPI as an HTTP 500 rather than a structured response. -/
inductive ServerFault
  | validationError
  deriving DecidableEq

/-- A call of the pydantic `LoginResponse(...)` constructor.  `token` has
no default value, so a call that omits it raises `ValidationError`. -/
def LoginResponse.build (success : Bool) (user : Option String) (token : Option String)
    (message : String) : Except ServerFault LoginResponse :=
  match token with
  | some t => Except.ok { success := success, user := user, token := t, message := message }
  | none => Except.error ServerFault.validationError

/-- The hardcoded credential table `USERS`. -/
def USERS : Registry String :=
  [("alphabravocharlie", "Alpha"), ("bravoalphacharlie", "Bravo")]

/-- The login endpoint.  `users_db` models the `db.users` collection (as
the list of stored usernames), `freshToken` the `uuid4` token minted on
success.  On an unrecognized password the code builds a `LoginResponse`
without a `token`, so the constructor raises and the endpoint faults. -/
def login (users_db : List String) (req : LoginRequest) (freshToken : String) :
    Except ServerFault LoginResponse × List String :=
  match lookup USERS req.password with
  | some username =>
      let users_db' := if users_db.contains username then users_db else users_db ++ [username]
      (LoginResponse.build true (some username) (some freshToken)
        ("Welcome " ++ username ++ "!"), users_db')
  | none => (LoginResponse.build false none none "Invalid password", users_db)

/-- State of one websocket handler task. -/
inductive HState
  | Open
  | Closed
  deriving DecidableEq

/-- One iteration of the `websocket_endpoint` loop, from the handler's
point of view: either a frame arrives and the pong write succeeds, or a
frame arrives and the pong write raises, or the receive raises
(`WebSocketDisconnect` from the peer, or any other transport exception). -/
inductive HEvent
  | frame (data : String)
  | frameSendError (data : String)
  | disconnect
  | recvError
  deriving DecidableEq

/-- Whether the event ends the handler task (everything except a
successfully acknowledged frame). -/
def HEvent.terminates : HEvent → Bool
  | .frame _ => false
  | _ => true

/-- The Connecting→Open transition of `websocket_endpoint`: after
`accept()`, `active_connections[user] = websocket`. -/
def websocket_connect {χ : Type} (reg : Registry χ) (user : String) (ch : χ) : Registry χ :=
  register reg user ch

/-- One step of the `websocket_endpoint` loop body for the handler of
`user`: the frames written, the handler state afterwards, and the
registry afterwards.  Both `except` arms run `active_connections.pop(user, None)`,
keyed only by the user string — the handler's own channel is not
consulted. -/
def websocket_step {χ : Type} (reg : Registry χ) (user : String) (ev : HEvent) :
    List WsOut × HState × Registry χ :=
  match ev with
  | .frame d => ([WsOut.pong d], HState.Open, reg)
  | .frameSendError _ => ([], HState.Closed, unregister reg user)
  | .disconnect => ([], HState.Closed, unregister reg user)
  | .recvError => ([], HState.Closed, unregister reg user)

/-! ### Helper lemmas -/

/-- The server state right after the `insert_one` of `send_message`
succeeds (registry not yet touched). -/
def afterInsert {χ : Type} (st : ServerState χ) (s : String) (mc : MessageCreate) :
    ServerState χ :=
  { st with messages := st.messages ++ [mkMessage st s mc], nextId := st.nextId + 1 }

/-- Same, for the branch where the live push failed and the receiver's
registry entry was dropped. -/
def afterInsertDropConn {χ : Type} (st : ServerState χ) (s : String) (mc : MessageCreate) :
    ServerState χ :=
  { afterInsert st s mc with conns := unregister st.conns mc.receiver }

theorem send_insert_ok {χ : Type} (st : ServerState χ) (s : String) (mc : MessageCreate)
    (pushOk : Bool) :
    ∃ outs st', send_message st s mc true pushOk = (Except.ok (mkMessage st s mc, outs), st') ∧
      st'.messages = st.messages ++ [mkMessage st s mc] ∧
      st'.nextId = st.nextId + 1 ∧ st'.now = st.now := by
  cases hl : lookup st.conns mc.receiver with
  | none =>
      refine ⟨[], afterInsert st s mc, ?_, rfl, rfl, rfl⟩
      simp [send_message, afterInsert, hl]
  | some ch =>
      cases pushOk with
      | true =>
          refine ⟨[(ch, WsOut.newMessage (mkMessage st s mc))], afterInsert st s mc,
            ?_, rfl, rfl, rfl⟩
          simp [send_message, afterInsert, hl]
      | false =>
          refine ⟨[], afterInsertDropConn st s mc, ?_, rfl, rfl, rfl⟩
          simp [send_message, afterInsert, afterInsertDropConn, hl]

theorem count_fetch_new (msgs : List Message) (m : Message) (u : String)
    (hid : ∀ m' ∈ msgs, m'.id ≠ m.id)
    (hm : matchesB u m = true)
    (hlen : (msgs.filter (matchesB u)).length < 1000) :
    ((((msgs ++ [m]).filter (matchesB u)).insertionSort tsLe).take 1000).count m = 1 := by
  have hf : (msgs ++ [m]).filter (matchesB u) = msgs.filter (matchesB u) ++ [m] := by
    simp [List.filter_append, hm]
  have hperm := List.perm_insertionSort tsLe ((msgs ++ [m]).filter (matchesB u))
  have hlen2 : (((msgs ++ [m]).filter (matchesB u)).insertionSort tsLe).length ≤ 1000 := by
    rw [hperm.length_eq, hf, List.length_append]
    simp only [List.length_singleton]
    omega
  rw [List.take_of_length_le hlen2, hperm.count_eq, hf, List.count_append]
  have h0 : (msgs.filter (matchesB u)).count m = 0 := by
    refine List.count_eq_zero.2 (fun hmem => ?_)
    exact hid m (List.mem_filter.1 hmem).1 rfl
  simp [h0]

theorem sorted_of_const_ts (l : List Message) (t : Nat) (h : ∀ m ∈ l, m.timestamp = t) :
    l.Sorted tsLe := by
  induction l with
  | nil => exact List.sorted_nil
  | cons a l ih =>
      rw [List.sorted_cons]
      refine ⟨fun b hb => ?_, ih (fun m hm => h m (List.mem_cons_of_mem a hm))⟩
      show a.timestamp ≤ b.timestamp
      rw [h a (List.mem_cons_self a l), h b (List.mem_cons_of_mem a hb)]

/-- A family of pairwise distinct stored messages (all between sender
"A" and receiver "B", all with timestamp 0) used to exhibit the
`to_list(1000)` cap of the fetch endpoint. -/
def capMsg (i : Nat) : Message :=
  { id := i, sender := "A", receiver := "B", encrypted_content := "", timestamp := 0 }

theorem capMsg_inj {i j : Nat} (h : capMsg i = capMsg j) : i = j :=
  congrArg Message.id h

theorem filter_capMsg_A (l : List Nat) :
    (l.map capMsg).filter (matchesB "A") = l.map capMsg := by
  refine List.filter_eq_self.2 (fun m hm => ?_)
  rcases List.mem_map.1 hm with ⟨i, _, rfl⟩
  simp [matchesB, capMsg]

theorem sort_capMsg (l : List Nat) :
    (l.map capMsg).insertionSort tsLe = l.map capMsg := by
  refine List.Sorted.insertionSort_eq (sorted_of_const_ts _ 0 ?_)
  intro m hm
  rcases List.mem_map.1 hm with ⟨i, _, rfl⟩
  rfl

theorem not_mem_map_capMsg_of_ge (l : List Nat) (m : Message) (hm : ∀ i ∈ l, i < m.id) :
    m ∉ l.map capMsg := by
  intro hmem
  rcases List.mem_map.1 hmem with ⟨i, hi, hEq⟩
  have : (capMsg i).id = m.id := congrArg Message.id hEq
  have : i = m.id := this
  exact absurd (hm i hi) (by omega)

/-! ### Concrete states used by witnesses and counterexamples -/

/-- An empty server state over numeric channel handles. -/
def st0 : ServerState Nat :=
  { messages := [], conns := [], nextId := 0, now := 0 }

/-! ### Claim theorems -/

/-- C1: the claim says every login with an unrecognized password yields a
well-formed structured failure response with `success=false` and message
"Invalid password".  The code instead constructs `LoginResponse` without
the required `token` field, so pydantic raises a `ValidationError` and
the endpoint surfaces a server fault (HTTP 500) — the repository's own
test file records this as a server bug.  This theorem evaluates the model
at the failing input. -/
theorem login_invalid_password_is_server_fault :
    lookup USERS "wrongpassword" = none ∧
    login [] { password := "wrongpassword" } "token-1"
      = (Except.error ServerFault.validationError, []) :=
  ⟨rfl, rfl⟩

/-- C3: when the History Store write fails, `send` fails whole with a
`StorageError`, pushes nothing (the error result carries no frames) and
leaves the state — messages and registry alike — unchanged; a fetch
during a storage outage likewise fails with no partial results and no
state change. -/
theorem storage_failure_aborts_send_and_fetch {χ : Type} (st : ServerState χ) (s : String)
    (mc : MessageCreate) (pushOk : Bool) (u : String) :
    send_message st s mc false pushOk = (Except.error StorageError.storageFailure, st) ∧
    get_messages st u false = (Except.error StorageError.storageFailure, st) :=
  ⟨rfl, rfl⟩

/-- C4: a terminating handler for identity X pops whatever entry is
currently stored under X, keyed only by the identity string: after
`register(X, c1)`, `register(X, c2)` and the termination of c1's handler,
`lookup X` is absent even though c2 is still open. -/
theorem stale_handler_removes_superseding_entry {χ : Type} (reg : Registry χ) (X : String)
    (c1 c2 : χ) :
    lookup (register (register reg X c1) X c2) X = some c2 ∧
    websocket_step (register (register reg X c1) X c2) X HEvent.disconnect
      = ([], HState.Closed, unregister (register (register reg X c1) X c2) X) ∧
    lookup (websocket_step (register (register reg X c1) X c2) X HEvent.disconnect).2.2 X
      = none := by
  refine ⟨lookup_register_self _ X c2, rfl, ?_⟩
  show lookup (unregister (register (register reg X c1) X c2) X) X = none
  exact lookup_unregister_self _ X

/-- C6: the registry keeps at most one entry per identity (`register`
preserves the key-uniqueness invariant, as does the double registration),
and registering c1 then c2 for the same identity makes `lookup` return
exactly c2; `register` is a total function, so it never fails. -/
theorem register_supersedes_unique {χ : Type} (reg : Registry χ) (X : String) (c1 c2 : χ)
    (h : NodupKeys reg) :
    lookup (register (register reg X c1) X c2) X = some c2 ∧
    NodupKeys (register reg X c1) ∧
    NodupKeys (register (register reg X c1) X c2) :=
  ⟨lookup_register_self _ X c2, nodupKeys_register reg X c1 h,
    nodupKeys_register _ X c2 (nodupKeys_register reg X c1 h)⟩

/-- Witness for C6 at a concrete registry. -/
theorem register_supersedes_unique_witness :
    lookup (register (register [("Z", 5)] "X" 1) "X" 2) "X" = some 2 ∧
    NodupKeys (register [("Z", (5 : Nat))] "X" 1) ∧
    NodupKeys (register (register [("Z", 5)] "X" 1) "X" 2) :=
  register_supersedes_unique [("Z", 5)] "X" 1 2 (by simp [NodupKeys])

/-- C9: on every inbound frame the handler writes back exactly one
acknowledgment frame, a pong echoing the received text unchanged, and
stays open with the registry untouched. -/
theorem websocket_frame_pong_echo {χ : Type} (reg : Registry χ) (user : String) (d : String) :
    websocket_step reg user (HEvent.frame d) = ([WsOut.pong d], HState.Open, reg) :=
  rfl

/-- C10: every event that ends the handler task — peer disconnect or any
transport read/write error — leaves the handler Closed and unregisters
the handler's identity; and unregistering an absent identity is a no-op
(and, being a total function, never an error). -/
theorem channel_close_unregisters {χ : Type} (reg : Registry χ) (user : String) (ev : HEvent)
    (h : ev.terminates = true) :
    (websocket_step reg user ev).2.1 = HState.Closed ∧
    (websocket_step reg user ev).2.2 = unregister reg user ∧
    (lookup reg user = none → unregister reg user = reg) := by
  cases ev with
  | frame d => simp [HEvent.terminates] at h
  | frameSendError d => exact ⟨rfl, rfl, unregister_of_lookup_none reg user⟩
  | disconnect => exact ⟨rfl, rfl, unregister_of_lookup_none reg user⟩
  | recvError => exact ⟨rfl, rfl, unregister_of_lookup_none reg user⟩

/-- Witness for C10 at a concrete registry and event. -/
theorem channel_close_unregisters_witness :
    (websocket_step ([] : Registry Nat) "X" HEvent.disconnect).2.1 = HState.Closed ∧
    (websocket_step ([] : Registry Nat) "X" HEvent.disconnect).2.2 = unregister [] "X" ∧
    (lookup ([] : Registry Nat) "X" = none → unregister ([] : Registry Nat) "X" = []) :=
  channel_close_unregisters [] "X" HEvent.disconnect rfl

/-- C5: live delivery is best-effort.  Whenever persistence succeeds and
either no channel is registered for the receiver or the push fails, the
send still returns the persisted Message as success (and delivers no
frame); a failed push additionally removes the receiver's registry entry,
while an absent receiver leaves the registry untouched. -/
theorem send_best_effort_delivery {χ : Type} (st : ServerState χ) (s : String)
    (mc : MessageCreate) (pushOk : Bool)
    (h : lookup st.conns mc.receiver = none ∨ pushOk = false) :
    ∃ st', send_message st s mc true pushOk = (Except.ok (mkMessage st s mc, []), st') ∧
      st'.messages = st.messages ++ [mkMessage st s mc] ∧
      (pushOk = false → lookup st'.conns mc.receiver = none) ∧
      (lookup st.conns mc.receiver = none → st'.conns = st.conns) := by
  cases hl : lookup st.conns mc.receiver with
  | none =>
      refine ⟨afterInsert st s mc, ?_, rfl, fun _ => ?_, fun _ => rfl⟩
      · simp [send_message, afterInsert, hl]
      · show lookup st.conns mc.receiver = none
        exact hl
  | some ch =>
      rcases h with h | h
      · rw [hl] at h
        cases h
      · subst h
        refine ⟨afterInsertDropConn st s mc, ?_, rfl, fun _ => ?_, fun hnone => ?_⟩
        · simp [send_message, afterInsert, afterInsertDropConn, hl]
        · exact lookup_unregister_self st.conns mc.receiver
        · cases hnone

/-- A state with one registered channel for "B", used by the C5 witness. -/
def stC5 : ServerState Nat :=
  { messages := [], conns := [("B", 7)], nextId := 0, now := 0 }

/-- The request body used by concrete witnesses. -/
def mcX : MessageCreate :=
  { receiver := "B", encrypted_content := "x" }

/-- Witness for C5: a send to a receiver with a registered but broken
channel still succeeds and drops the stale entry. -/
theorem send_best_effort_delivery_witness :
    ∃ st', send_message stC5 "A" mcX true false
        = (Except.ok (mkMessage stC5 "A" mcX, []), st') ∧
      st'.messages = stC5.messages ++ [mkMessage stC5 "A" mcX] ∧
      (false = false → lookup st'.conns mcX.receiver = none) ∧
      (lookup stC5.conns mcX.receiver = none → st'.conns = stC5.conns) :=
  send_best_effort_delivery stC5 "A" mcX false (Or.inr rfl)

/-- The record the server persists for a fully empty-identity send. -/
def emptyIdMsg : Message :=
  { id := 0, sender := "", receiver := "", encrypted_content := "payload", timestamp := 0 }

/-- C8: the claim says empty sender or receiver identities are rejected
before any side effect.  The code performs no such validation: this
counterexample sends with both identities empty and the message is
accepted and persisted. -/
theorem send_empty_identity_accepted :
    (send_message st0 "" { receiver := "", encrypted_content := "payload" } true true).1
      = Except.ok (emptyIdMsg, []) ∧
    (send_message st0 "" { receiver := "", encrypted_content := "payload" } true true).2.messages
      = [emptyIdMsg] :=
  ⟨rfl, rfl⟩

/-- C8 (amended): the send path validates nothing about identities: every
call — with any sender and receiver strings, empty ones included, and
regardless of whether the receiver was ever seen before — is accepted and
persisted once the store write succeeds. -/
theorem send_accepts_any_identities {χ : Type} (st : ServerState χ) (s : String)
    (mc : MessageCreate) (pushOk : Bool) :
    ∃ outs st', send_message st s mc true pushOk = (Except.ok (mkMessage st s mc, outs), st') ∧
      st'.messages = st.messages ++ [mkMessage st s mc] := by
  obtain ⟨outs, st', h1, h2, _, _⟩ := send_insert_ok st s mc pushOk
  exact ⟨outs, st', h1, h2⟩

/-- C7 (amended): as long as at most 1000 stored messages involve the
identity, fetch returns exactly the stored messages whose sender or
receiver equals the identity (a permutation of the matching store
content), ordered non-decreasingly by timestamp, and mutates neither the
store nor the registry (the state comes back unchanged). -/
theorem get_messages_exact_sorted {χ : Type} (st : ServerState χ) (u : String)
    (hlen : (st.messages.filter (matchesB u)).length ≤ 1000) :
    ∃ res, get_messages st u true = (Except.ok res, st) ∧
      res.Sorted tsLe ∧ res.Perm (st.messages.filter (matchesB u)) := by
  have hperm := List.perm_insertionSort tsLe (st.messages.filter (matchesB u))
  have hlen2 : ((st.messages.filter (matchesB u)).insertionSort tsLe).length ≤ 1000 := by
    rw [hperm.length_eq]
    exact hlen
  refine ⟨_, rfl, ?_, ?_⟩
  · rw [List.take_of_length_le hlen2]
    exact List.sorted_insertionSort tsLe _
  · rw [List.take_of_length_le hlen2]
    exact hperm

/-- Witness for C7 at a concrete state. -/
theorem get_messages_exact_sorted_witness :
    ∃ res, get_messages stC5 "A" true = (Except.ok res, stC5) ∧
      res.Sorted tsLe ∧ res.Perm (stC5.messages.filter (matchesB "A")) :=
  get_messages_exact_sorted stC5 "A" (by decide)

/-- The store that overflows the fetch cap: 1001 distinct matching
messages. -/
def capState : ServerState Nat :=
  { messages := (List.range 1001).map capMsg, conns := [], nextId := 1001, now := 0 }

set_option maxRecDepth 8000 in
/-- C7 (counterexample to the claim as stated): with 1001 stored messages
matching identity "A", the fetch result misses one of them — the
`to_list(1000)` cap truncates the history, so fetch does not return
exactly the matching stored messages. -/
theorem get_messages_cap_counterexample :
    ∃ res, get_messages capState "A" true = (Except.ok res, capState) ∧
      capMsg 1000 ∈ capState.messages ∧
      matchesB "A" (capMsg 1000) = true ∧
      capMsg 1000 ∉ res ∧
      res.length = 1000 := by
  have hmsgs : capState.messages = (List.range 1001).map capMsg := rfl
  have hres : ((capState.messages.filter (matchesB "A")).insertionSort tsLe).take 1000
      = (List.range 1000).map capMsg := by
    rw [hmsgs, filter_capMsg_A, sort_capMsg, ← List.map_take, List.take_range,
      Nat.min_eq_left (by omega)]
  refine ⟨_, rfl, ?_, ?_, ?_, ?_⟩
  · exact List.mem_map.2 ⟨1000, List.mem_range.2 (by omega), rfl⟩
  · rfl
  · show capMsg 1000 ∉ ((capState.messages.filter (matchesB "A")).insertionSort tsLe).take 1000
    rw [hres]
    refine not_mem_map_capMsg_of_ge _ _ (fun i hi => ?_)
    have : i < 1000 := List.mem_range.1 hi
    show i < (capMsg 1000).id
    simpa [capMsg]
  · show (((capState.messages.filter (matchesB "A")).insertionSort tsLe).take 1000).length = 1000
    rw [hres]
    simp

/-- C2 (amended): for every valid triple, as long as fewer than 1000
already-stored messages involve the sender and fewer than 1000 involve
the receiver (the fetch endpoint caps results at 1000), and stored ids
are fresh below the id counter, send followed by fetch(sender) and
fetch(receiver) both contain the sent Message exactly once, with content,
sender and receiver equal to the inputs. -/
theorem send_then_fetch_contains_once {χ : Type} (st : ServerState χ) (s : String)
    (mc : MessageCreate) (pushOk : Bool)
    (hfresh : ∀ m' ∈ st.messages, m'.id < st.nextId)
    (hs : (st.messages.filter (matchesB s)).length < 1000)
    (hr : (st.messages.filter (matchesB mc.receiver)).length < 1000) :
    ∃ outs st',
      send_message st s mc true pushOk = (Except.ok (mkMessage st s mc, outs), st') ∧
      (mkMessage st s mc).sender = s ∧
      (mkMessage st s mc).receiver = mc.receiver ∧
      (mkMessage st s mc).encrypted_content = mc.encrypted_content ∧
      ∃ rs rr,
        get_messages st' s true = (Except.ok rs, st') ∧
        get_messages st' mc.receiver true = (Except.ok rr, st') ∧
        rs.count (mkMessage st s mc) = 1 ∧
        rr.count (mkMessage st s mc) = 1 := by
  obtain ⟨outs, st', hsend, hmsgs, hnext, hnow⟩ := send_insert_ok st s mc pushOk
  refine ⟨outs, st', hsend, rfl, rfl, rfl, _, _, rfl, rfl, ?_, ?_⟩
  · show (((st'.messages.filter (matchesB s)).insertionSort tsLe).take 1000).count
        (mkMessage st s mc) = 1
    rw [hmsgs]
    exact count_fetch_new st.messages (mkMessage st s mc) s
      (fun m' hm' => Nat.ne_of_lt (hfresh m' hm')) (by simp [matchesB, mkMessage]) hs
  · show (((st'.messages.filter (matchesB mc.receiver)).insertionSort tsLe).take 1000).count
        (mkMessage st s mc) = 1
    rw [hmsgs]
    exact count_fetch_new st.messages (mkMessage st s mc) mc.receiver
      (fun m' hm' => Nat.ne_of_lt (hfresh m' hm')) (by simp [matchesB, mkMessage]) hr

/-- Witness for C2 at the empty store. -/
theorem send_then_fetch_contains_once_witness :
    ∃ outs st',
      send_message st0 "A" mcX true true = (Except.ok (mkMessage st0 "A" mcX, outs), st') ∧
      (mkMessage st0 "A" mcX).sender = "A" ∧
      (mkMessage st0 "A" mcX).receiver = mcX.receiver ∧
      (mkMessage st0 "A" mcX).encrypted_content = mcX.encrypted_content ∧
      ∃ rs rr,
        get_messages st' "A" true = (Except.ok rs, st') ∧
        get_messages st' mcX.receiver true = (Except.ok rr, st') ∧
        rs.count (mkMessage st0 "A" mcX) = 1 ∧
        rr.count (mkMessage st0 "A" mcX) = 1 :=
  send_then_fetch_contains_once st0 "A" mcX true
    (fun m' hm' => absurd hm' (List.not_mem_nil m')) (by decide) (by decide)

/-- A store that already holds 1000 messages involving sender "A", all
older than the clock; the id counter sits at 2000. -/
def preState : ServerState Nat :=
  { messages := (List.range 1000).map capMsg, conns := [], nextId := 2000, now := 1 }

set_option maxRecDepth 8000 in
/-- C2 (counterexample to the claim as stated): with 1000 matching
messages already stored, a send followed by fetch(sender) does not
contain the sent message at all — the fetch cap of 1000 cuts it off —
refuting the "regardless of how many messages the History Store already
holds" part of the claim. -/
theorem send_then_fetch_cap_counterexample :
    ∃ st', send_message preState "A" mcX true true
        = (Except.ok (mkMessage preState "A" mcX, []), st') ∧
      ∃ rs, get_messages st' "A" true = (Except.ok rs, st') ∧
        rs.count (mkMessage preState "A" mcX) = 0 := by
  have hmsgs : (afterInsert preState "A" mcX).messages
      = (List.range 1000).map capMsg ++ [mkMessage preState "A" mcX] := rfl
  have hfilter : (((List.range 1000).map capMsg ++ [mkMessage preState "A" mcX]).filter
        (matchesB "A"))
      = (List.range 1000).map capMsg ++ [mkMessage preState "A" mcX] := by
    rw [List.filter_append, filter_capMsg_A]
    simp [matchesB, mkMessage]
  have hsorted : ((List.range 1000).map capMsg ++ [mkMessage preState "A" mcX]).Sorted tsLe := by
    show List.Pairwise tsLe _
    rw [List.pairwise_append]
    refine ⟨sorted_of_const_ts _ 0 ?_, List.sorted_singleton _, ?_⟩
    · intro m hm
      rcases List.mem_map.1 hm with ⟨i, _, rfl⟩
      rfl
    · intro a ha b hb
      rcases List.mem_map.1 ha with ⟨i, _, rfl⟩
      rcases List.mem_singleton.1 hb with rfl
      show (capMsg i).timestamp ≤ (mkMessage preState "A" mcX).timestamp
      show (0 : Nat) ≤ 1
      omega
  have hlen1000 : ((List.range 1000).map capMsg).length = 1000 := by simp
  have hlt : ∀ i ∈ List.range 1000, i < (mkMessage preState "A" mcX).id := by
    intro i hi
    have h1 : i < 1000 := List.mem_range.1 hi
    show i < 2000
    omega
  refine ⟨afterInsert preState "A" mcX, ?_, _, rfl, ?_⟩
  · simp [send_message, afterInsert, preState, lookup, mcX]
  · show ((((afterInsert preState "A" mcX).messages.filter (matchesB "A")).insertionSort
        tsLe).take 1000).count (mkMessage preState "A" mcX) = 0
    rw [hmsgs, hfilter, hsorted.insertionSort_eq, List.take_left' hlen1000]
    exact List.count_eq_zero.2 (not_mem_map_capMsg_of_ge _ _ hlt)

end Messenger
